import Mathlib

/-!
Shallow embedding of `optimize.py` (imgopt): the batch image-to-WebP
conversion pipeline.  Filesystem paths are modelled as lists of name
components (an absolute path `/r/a/b.png` is `["r", "a", "b.png"]`);
the filesystem itself is modelled by explicit predicates or lists of
entries handed to the functions, and each effectful step of the
per-image converter is modelled by an `Except String` result supplied
in an environment record.
-/

set_option linter.unusedVariables false

namespace Imgopt

/-- Paths are lists of name components, root-relative. -/
abbrev FsPath := List String

/-- Python `str.lower()` restricted to ASCII, as applied to extensions. -/
def pyLower (s : String) : String := (s.toList.map Char.toLower).asString

/-- Index of the last `.` in a list of characters, if any. -/
def rfindDot : List Char → Option Nat
  | [] => none
  | c :: cs =>
    match rfindDot cs with
    | some i => some (i + 1)
    | none => if c = '.' then some 0 else none

/-- Position of the extension of a file name, following Python
`pathlib.PurePath.suffix`: the last dot, provided it is neither the
first nor the last character (`i` with `0 < i < len(name) - 1`). -/
def suffixIdx (name : String) : Option Nat :=
  match rfindDot name.toList with
  | some i => if 0 < i ∧ i + 1 < name.toList.length then some i else none
  | none => none

/-- Python `PurePath.suffix` of a file name: `"a.png"` gives `".png"`,
`".png"`, `"a."` and `"a"` give `""`, `"a.tar.gz"` gives `".gz"`. -/
def pySuffix (name : String) : String :=
  match suffixIdx name with
  | some i => (name.toList.drop i).asString
  | none => ""

/-- Python `PurePath.stem`-style prefix: the name with `pySuffix` removed. -/
def pyStem (name : String) : String :=
  match suffixIdx name with
  | some i => (name.toList.take i).asString
  | none => name

/-- Python `PurePath.with_suffix` on a file name: drop the current
suffix (if any) and append the new one. -/
def pyWithSuffix (name sfx : String) : String := pyStem name ++ sfx

/-- Last component of a path (Python `Path.name`). -/
def pathName (p : FsPath) : String := p.getLastD ""

/-- Extension of a path, the suffix of its last component
(Python `Path.suffix`). -/
def pathSuffix (p : FsPath) : String := pySuffix (pathName p)

/-- Python `p.with_suffix(sfx)`: replace the extension of the last
component.  (On a path with an empty name Python raises `ValueError`;
the callers below only reach this with a non-empty relative path.) -/
def path_with_suffix (p : FsPath) (sfx : String) : FsPath :=
  p.dropLast ++ [pyWithSuffix (pathName p) sfx]

/-- Membership of `anc` in Python `p.parents`: the proper ancestors of
`p`, i.e. the proper prefixes of the component list. -/
def inParents (anc p : FsPath) : Bool := anc.isPrefixOf p && anc != p

/-- Python `p.relative_to(root)`: strip `root` as a prefix, `none`
models the `ValueError` raised when `root` is not a prefix. -/
def relative_to (p root : FsPath) : Option FsPath :=
  if root.isPrefixOf p then some (p.drop root.length) else none

/-- Source line 18: the set of input extensions. -/
def EXTENSIONS : List String := [".png", ".jpg", ".jpeg", ".bmp", ".tiff"]

/-- One filesystem entry seen by `input_dir.rglob("*")`: its path and
whether it is a regular file. -/
structure FsEntry where
  path : FsPath
  isFile : Bool
deriving DecidableEq

/-- Source lines 236-241: the scanner's filter over all entries below
the input root, keeping regular files with a recognised extension that
do not lie below the output directory. -/
def scanFiles (entries : List FsEntry) (output_dir : FsPath) : List FsEntry :=
  entries.filter fun f =>
    EXTENSIONS.contains (pyLower (pathSuffix f.path)) && f.isFile &&
      !(inParents output_dir f.path)

/-- Source lines 110-111: destination of one work item, the output root
joined with the source path relative to the input root, its extension
replaced by `.webp`. -/
def output_file_path (file_path output_root input_root : FsPath) : Option FsPath :=
  (relative_to file_path input_root).map fun rel =>
    output_root ++ path_with_suffix rel ".webp"

lemma inParents_iff (anc p : FsPath) :
    inParents anc p = true ↔ (anc <+: p ∧ anc ≠ p) := by
  simp [inParents, List.isPrefixOf_iff_prefix, bne_iff_ne]

lemma rfindDot_append (xs ys : List Char) :
    rfindDot (xs ++ ys) =
      match rfindDot ys with
      | some i => some (xs.length + i)
      | none => rfindDot xs := by
  induction xs with
  | nil =>
    cases h : rfindDot ys <;> simp [h, rfindDot]
  | cons c cs ih =>
    rw [List.cons_append]
    show (match rfindDot (cs ++ ys) with
      | some i => some (i + 1)
      | none => if c = '.' then some 0 else none) = _
    rw [ih]
    cases h : rfindDot ys with
    | some i =>
      show some (cs.length + i + 1) = some ((c :: cs).length + i)
      exact congrArg some (by simp [List.length_cons]; omega)
    | none =>
      show (match rfindDot cs with
        | some i => some (i + 1)
        | none => if c = '.' then some 0 else none) = rfindDot (c :: cs)
      rfl

lemma rfindDot_append_webp (stem : List Char) :
    rfindDot (stem ++ ".webp".toList) = some stem.length := by
  rw [rfindDot_append]
  have h : rfindDot ".webp".toList = some 0 := by decide
  rw [h]
  show some (stem.length + 0) = some stem.length
  rw [Nat.add_zero]

lemma suffixIdx_append_webp (stem : String) (h : stem ≠ "") :
    suffixIdx (stem ++ ".webp") = some stem.toList.length := by
  have hr : rfindDot (stem ++ ".webp").toList = some stem.toList.length :=
    rfindDot_append_webp stem.toList
  have hpos : 0 < stem.toList.length := by
    cases hh : stem.toList with
    | nil =>
      exact absurd (by apply String.ext; simpa using hh) h
    | cons a l => simp
  have h5 : ".webp".toList.length = 5 := rfl
  have hlen : (stem ++ ".webp").toList.length = stem.toList.length + 5 := by
    show (stem.toList ++ ".webp".toList).length = _
    rw [List.length_append, h5]
  simp only [suffixIdx, hr]
  rw [if_pos ⟨hpos, by omega⟩]

lemma pySuffix_append_webp (stem : String) (h : stem ≠ "") :
    pySuffix (stem ++ ".webp") = ".webp" := by
  simp only [pySuffix, suffixIdx_append_webp stem h]
  show ((stem.toList ++ ".webp".toList).drop stem.toList.length).asString = ".webp"
  rw [List.drop_left]
  rfl

lemma suffixIdx_bounds (name : String) (i : Nat) (h : suffixIdx name = some i) :
    0 < i ∧ i + 1 < name.toList.length := by
  rw [suffixIdx] at h
  split at h
  · split at h
    · cases h
      assumption
    · cases h
  · cases h

lemma pyStem_ne_empty (name : String) (h : pyLower (pySuffix name) ∈ EXTENSIONS) :
    pyStem name ≠ "" := by
  cases hs : suffixIdx name with
  | none =>
    simp only [pySuffix, hs] at h
    exact absurd h (by decide)
  | some i =>
    obtain ⟨hi, hlen⟩ := suffixIdx_bounds name i hs
    simp only [pyStem, hs]
    intro hemp
    have hth := congrArg String.toList hemp
    have hd : name.toList.take i = [] := by
      rwa [show (name.toList.take i).asString.toList = name.toList.take i from rfl] at hth
    have hz : (name.toList.take i).length = 0 := by rw [hd]; rfl
    rw [List.length_take] at hz
    omega

/-- Filesystem and image-library effects of one conversion, each step
modelled by the result the real call would produce: `Except.error e`
models the call raising an exception whose text is `e`. -/
structure ConvEnv where
  /-- Line 112: `output_file_path.parent.mkdir(parents=True, exist_ok=True)`. -/
  mkdirParents : Except String Unit
  /-- Line 114: `file_path.stat().st_size`. -/
  statSrc : Except String Nat
  /-- Line 116: `Image.open(file_path)`, yielding `(width, height)`. -/
  decode : Except String (Nat × Nat)
  /-- Line 121: `img.resize(...)`. -/
  resize : Except String Unit
  /-- Line 123: `img.save(output_file_path, "webp", ...)`. -/
  save : Except String Unit
  /-- Line 125: `output_file_path.stat().st_size`. -/
  statDst : Except String Nat

/-- Body of the `try` block of `process_single_image` (lines 110-126):
the sequence of steps up to the success tuple, stopping at the first
step that raises.  `max_width` is `none` when no limit is configured;
the Python truthiness test `if max_width` also skips the resize when
the limit is `0`. -/
def convertPipeline (file_path output_root input_root : FsPath)
    (max_width : Option Nat) (env : ConvEnv) :
    Except String (FsPath × String × Nat × Nat) := do
  let out ← match output_file_path file_path output_root input_root with
    | some o => Except.ok o
    | none => Except.error "is not in the subpath"
  let _ ← env.mkdirParents
  let original_size ← env.statSrc
  let wh ← env.decode
  let _ ← match max_width with
    | some mw => if mw ≠ 0 ∧ wh.1 > mw then env.resize else Except.ok ()
    | none => Except.ok ()
  let _ ← env.save
  let new_size ← env.statDst
  return (out, pathName file_path, original_size, new_size)

/-- Source lines 102-129, `process_single_image`: run the pipeline and
catch every exception, turning it into the failure tuple
`(False, f"{file_path.name}: {e}", 0, 0)`. -/
def process_single_image (file_path output_root input_root : FsPath)
    (quality : Nat) (max_width : Option Nat) (env : ConvEnv) :
    Bool × String × Nat × Nat :=
  match convertPipeline file_path output_root input_root max_width env with
  | Except.ok (_, name, original_size, new_size) =>
    (true, name, original_size, new_size)
  | Except.error e => (false, pathName file_path ++ ": " ++ e, 0, 0)

/-- Loop of `get_unique_output_folder` (lines 93-99): try
`name_1, name_2, ...` until a candidate is not an existing regular
file.  The source loop is unbounded (`while True`); `fuel` bounds the
embedding, and `none` means the fuel ran out before a free name. -/
def uniqueLoop (is_file : FsPath → Bool) (base_folder : FsPath) (name : String) :
    Nat → Nat → Option FsPath
  | 0, _ => none
  | fuel + 1, counter =>
    let new_path := base_folder ++ [name ++ "_" ++ toString counter]
    if is_file new_path then uniqueLoop is_file base_folder name fuel (counter + 1)
    else some new_path

/-- Source lines 89-100, `get_unique_output_folder`: the filesystem is
modelled by the two predicates `fs_exists` and `is_file` (Python
`Path.exists()` / `Path.is_file()`). -/
def get_unique_output_folder (fs_exists is_file : FsPath → Bool)
    (base_folder : FsPath) (name : String) (fuel : Nat) : Option FsPath :=
  let output_path := base_folder ++ [name]
  if fs_exists output_path && is_file output_path then
    uniqueLoop is_file base_folder name fuel 1
  else some output_path

/-- One work-item tuple as built on source line 257:
`(f, output_dir, input_dir, quality, target_width)`. -/
abbrev WorkItem := FsPath × FsPath × FsPath × Nat × Option Nat

/-- Source line 266: `executor.map(process_single_image, tasks)`.
`ProcessPoolExecutor.map` yields exactly one result per task, in the
order the tasks were submitted. -/
def executorMap {α β : Type} (f : α → β) (tasks : List α) : List β :=
  tasks.map f

/-- Run the converter on one work-item tuple; `envOf` supplies the
per-item filesystem/image effects. -/
def runWorker (envOf : WorkItem → ConvEnv) (t : WorkItem) :
    Bool × String × Nat × Nat :=
  process_single_image t.1 t.2.1 t.2.2.1 t.2.2.2.1 t.2.2.2.2 (envOf t)

/-- Accumulator of the aggregation loop, source lines 259-262:
`success`, `failed`, `orig_total`, `new_total`. -/
structure AggState where
  success : Nat
  failed : Nat
  orig_total : Nat
  new_total : Nat
deriving DecidableEq

/-- Initial accumulator (lines 259-262: all four counters start at 0). -/
def aggInit : AggState := ⟨0, 0, 0, 0⟩

/-- One iteration of the loop on lines 267-275. -/
def aggStep (s : AggState) (o : Bool × String × Nat × Nat) : AggState :=
  match o with
  | (true, _, orig, new_s) =>
    { s with
      success := s.success + 1
      orig_total := s.orig_total + orig
      new_total := s.new_total + new_s }
  | (false, _, _, _) => { s with failed := s.failed + 1 }

/-- The whole aggregation loop over the stream of outcomes. -/
def aggregate (outcomes : List (Bool × String × Nat × Nat)) : AggState :=
  outcomes.foldl aggStep aggInit

/-- Source lines 281-283: bytes saved and percentage saved.  The
division is exact rational division here; the guard `orig_total > 0`
is the one in the source. -/
def pctSaved (s : AggState) : ℚ :=
  if s.orig_total > 0 then
    (((s.orig_total : Int) - s.new_total : Int) : ℚ) / (s.orig_total : ℚ) * 100
  else 0

/-- Process exit status of `main`: line 245 (`sys.exit(0)` when no
files), line 279 (`sys.exit(1)` on `KeyboardInterrupt`), and lines
291-292 (`sys.exit(1)` iff no item succeeded, else `sys.exit(0)`). -/
def mainExitCode (numFiles : Nat) (cancelled : Bool) (success : Nat) : Nat :=
  if numFiles = 0 then 0
  else if cancelled then 1
  else if success = 0 then 1
  else 0

lemma foldl_aggStep_counts (outs : List (Bool × String × Nat × Nat)) :
    ∀ s : AggState,
      (outs.foldl aggStep s).success = s.success + (outs.filter fun o => o.1).length ∧
      (outs.foldl aggStep s).failed = s.failed + (outs.filter fun o => !o.1).length := by
  induction outs with
  | nil => intro s; simp
  | cons o rest ih =>
    intro s
    obtain ⟨b, msg, og, ns⟩ := o
    rw [List.foldl_cons]
    cases b
    · constructor
      · rw [(ih _).1]
        simp [aggStep, List.filter_cons]
      · rw [(ih _).2]
        simp [aggStep, List.filter_cons]
        omega
    · constructor
      · rw [(ih _).1]
        simp [aggStep, List.filter_cons]
        omega
      · rw [(ih _).2]
        simp [aggStep, List.filter_cons]

lemma aggregate_success_eq (outs : List (Bool × String × Nat × Nat)) :
    (aggregate outs).success = (outs.filter fun o => o.1).length :=
  by simpa [aggInit] using (foldl_aggStep_counts outs aggInit).1

lemma aggregate_failed_eq (outs : List (Bool × String × Nat × Nat)) :
    (aggregate outs).failed = (outs.filter fun o => !o.1).length :=
  by simpa [aggInit] using (foldl_aggStep_counts outs aggInit).2

lemma aggregate_success_add_failed (outs : List (Bool × String × Nat × Nat)) :
    (aggregate outs).success + (aggregate outs).failed = outs.length := by
  rw [aggregate_success_eq, aggregate_failed_eq]
  exact (List.length_eq_length_filter_add (fun o : Bool × String × Nat × Nat => o.1)).symm

lemma uniqueLoop_finds (is_file : FsPath → Bool) (base_folder : FsPath)
    (name : String) (i : Nat)
    (hfree : is_file (base_folder ++ [name ++ "_" ++ toString i]) = false) :
    ∀ fuel counter, counter ≤ i → i < counter + fuel →
      (∀ j, counter ≤ j → j < i →
        is_file (base_folder ++ [name ++ "_" ++ toString j]) = true) →
      uniqueLoop is_file base_folder name fuel counter =
        some (base_folder ++ [name ++ "_" ++ toString i]) := by
  intro fuel
  induction fuel with
  | zero => intro counter h1 h2 _; omega
  | succ fuel ih =>
    intro counter h1 h2 hall
    by_cases hc : counter = i
    · subst hc
      simp [uniqueLoop, hfree]
    · have hci : counter < i := lt_of_le_of_ne h1 hc
      have hcf := hall counter le_rfl hci
      simp only [uniqueLoop, hcf, if_true]
      exact ih (counter + 1) hci (by omega) fun j hj1 hj2 => hall j (by omega) hj2

/-- Claim C2, counterexample: the source-to-destination mapping is not
injective over a run's work set.  The two distinct regular files
`r/a.png` and `r/a.jpg` both pass the scanner's filter, yet
`process_single_image` computes the same destination `r/optimized_webp/a.webp`
for both, because `with_suffix(".webp")` erases the extension that
distinguishes them. -/
theorem dest_not_injective_counterexample :
    (FsEntry.mk ["r", "a.png"] true) ∈
        scanFiles [FsEntry.mk ["r", "a.png"] true, FsEntry.mk ["r", "a.jpg"] true]
          ["r", "optimized_webp"] ∧
    (FsEntry.mk ["r", "a.jpg"] true) ∈
        scanFiles [FsEntry.mk ["r", "a.png"] true, FsEntry.mk ["r", "a.jpg"] true]
          ["r", "optimized_webp"] ∧
    (["r", "a.png"] : FsPath) ≠ ["r", "a.jpg"] ∧
    output_file_path ["r", "a.png"] ["r", "optimized_webp"] ["r"] =
      output_file_path ["r", "a.jpg"] ["r", "optimized_webp"] ["r"] := by
  decide

/-- Claim C2, amended: two WorkItems of the same run receive the same
destination file exactly when their source paths relative to the input
root coincide after the extension is replaced by `.webp`; destinations
are distinct whenever the extension-stripped relative paths differ, but
sources that differ only in their extension (such as `a.png` and
`a.jpg`) collide on one output file. -/
theorem dest_collision_iff (fp1 fp2 output_root input_root rel1 rel2 : FsPath)
    (h1 : relative_to fp1 input_root = some rel1)
    (h2 : relative_to fp2 input_root = some rel2) :
    output_file_path fp1 output_root input_root =
        output_file_path fp2 output_root input_root ↔
      path_with_suffix rel1 ".webp" = path_with_suffix rel2 ".webp" := by
  rw [output_file_path, output_file_path, h1, h2]
  show some (output_root ++ path_with_suffix rel1 ".webp") =
      some (output_root ++ path_with_suffix rel2 ".webp") ↔ _
  constructor
  · intro h
    exact List.append_cancel_left (Option.some.inj h)
  · intro h
    rw [h]

/-- Witness for `dest_collision_iff` at a concrete input. -/
theorem dest_collision_iff_witness :
    relative_to ["r", "a.png"] ["r"] = some ["a.png"] ∧
    relative_to ["r", "b.png"] ["r"] = some ["b.png"] ∧
    (output_file_path ["r", "a.png"] ["r", "o"] ["r"] =
        output_file_path ["r", "b.png"] ["r", "o"] ["r"] ↔
      path_with_suffix ["a.png"] ".webp" = path_with_suffix ["b.png"] ".webp") :=
  ⟨rfl, rfl, dest_collision_iff _ _ _ _ _ _ rfl rfl⟩

/-- Claim C3: the scanner's work set contains exactly the entries that
are regular files, whose extension lowercased is a recognised one, and
whose path does not lie strictly below the output root; in particular
every file strictly below the output root, at any depth, is excluded. -/
theorem scan_work_set_characterization (entries : List FsEntry)
    (output_dir : FsPath) (f : FsEntry) :
    (f ∈ scanFiles entries output_dir ↔
      f ∈ entries ∧ f.isFile = true ∧
        pyLower (pathSuffix f.path) ∈ EXTENSIONS ∧
        ¬(output_dir <+: f.path ∧ output_dir ≠ f.path)) ∧
    (f ∈ entries → output_dir <+: f.path → output_dir ≠ f.path →
      f ∉ scanFiles entries output_dir) := by
  have hmain : f ∈ scanFiles entries output_dir ↔
      f ∈ entries ∧ f.isFile = true ∧
        pyLower (pathSuffix f.path) ∈ EXTENSIONS ∧
        ¬(output_dir <+: f.path ∧ output_dir ≠ f.path) := by
    rw [scanFiles, List.mem_filter]
    constructor
    · rintro ⟨hm, hp⟩
      rw [Bool.and_eq_true, Bool.and_eq_true, Bool.not_eq_true'] at hp
      obtain ⟨⟨hA, hB⟩, hC⟩ := hp
      refine ⟨hm, hB, List.elem_iff.mp hA, ?_⟩
      intro hcon
      exact absurd ((inParents_iff output_dir f.path).mpr hcon) (by simp [hC])
    · rintro ⟨hm, hB, hA, hn⟩
      refine ⟨hm, ?_⟩
      rw [Bool.and_eq_true, Bool.and_eq_true, Bool.not_eq_true']
      refine ⟨⟨List.elem_iff.mpr hA, hB⟩, ?_⟩
      cases hc : inParents output_dir f.path
      · rfl
      · exact absurd ((inParents_iff output_dir f.path).mp hc) hn
  refine ⟨hmain, fun hm hpre hne hmem => ?_⟩
  exact absurd ⟨hpre, hne⟩ (hmain.mp hmem).2.2.2

/-- Witness for `scan_work_set_characterization`: a file nested below
the output directory is excluded from the work set. -/
theorem scan_work_set_characterization_witness :
    (FsEntry.mk ["r", "optimized_webp", "x.png"] true) ∈
        [FsEntry.mk ["r", "x.png"] true,
         FsEntry.mk ["r", "optimized_webp", "x.png"] true] ∧
    (["r", "optimized_webp"] : FsPath) <+: ["r", "optimized_webp", "x.png"] ∧
    (["r", "optimized_webp"] : FsPath) ≠ ["r", "optimized_webp", "x.png"] ∧
    (FsEntry.mk ["r", "optimized_webp", "x.png"] true) ∉
      scanFiles
        [FsEntry.mk ["r", "x.png"] true,
         FsEntry.mk ["r", "optimized_webp", "x.png"] true]
        ["r", "optimized_webp"] :=
  ⟨by decide, ⟨["x.png"], rfl⟩, by decide,
    (scan_work_set_characterization _ _ _).2 (by decide) ⟨["x.png"], rfl⟩ (by decide)⟩

/-- Claim C4: whenever any step of the conversion raises (the pipeline
produces `Except.error e`), `process_single_image` returns the failure
tuple carrying the file's display name and the error text; the
exception never propagates (the function always returns an outcome
tuple). -/
theorem converter_catches_all_failures
    (file_path output_root input_root : FsPath) (quality : Nat)
    (max_width : Option Nat) (env : ConvEnv) (e : String)
    (h : convertPipeline file_path output_root input_root max_width env =
      Except.error e) :
    process_single_image file_path output_root input_root quality max_width env =
      (false, pathName file_path ++ ": " ++ e, 0, 0) := by
  rw [process_single_image, h]

/-- Witness for `converter_catches_all_failures`: a decode failure. -/
theorem converter_catches_all_failures_witness :
    convertPipeline ["r", "a.png"] ["r", "optimized_webp"] ["r"] (some 1920)
        ⟨Except.ok (), Except.ok 100, Except.error "cannot identify image file",
          Except.ok (), Except.ok (), Except.ok 10⟩ =
      Except.error "cannot identify image file" ∧
    process_single_image ["r", "a.png"] ["r", "optimized_webp"] ["r"] 80 (some 1920)
        ⟨Except.ok (), Except.ok 100, Except.error "cannot identify image file",
          Except.ok (), Except.ok (), Except.ok 10⟩ =
      (false, "a.png: cannot identify image file", 0, 0) :=
  ⟨rfl, converter_catches_all_failures _ _ _ _ _ _ _ rfl⟩

/-- Claim C5, counterexample: cancellation is not a terminal state
distinct from the all-failed error state: a cancelled run over a
non-empty work set exits with status 1, exactly the status of a run
where every item failed. -/
theorem cancel_exit_equals_allfailed_exit :
    mainExitCode 2 true 0 = 1 ∧ mainExitCode 2 false 0 = 1 ∧
    mainExitCode 2 true 0 = mainExitCode 2 false 0 := by
  decide

/-- Claim C5, amended: zero qualifying files exits 0 (non-error); zero
successes among one or more attempted files exits 1 (error); at least
one success exits 0 regardless of failures; cancellation exits 1 — the
same exit status as the all-failed state, distinguished only by the
logged message, not by the terminal status itself. -/
theorem exit_code_terminal_states (numFiles success : Nat) (cancelled : Bool) :
    (numFiles = 0 → mainExitCode numFiles cancelled success = 0) ∧
    (0 < numFiles → cancelled = true → mainExitCode numFiles cancelled success = 1) ∧
    (0 < numFiles → cancelled = false → success = 0 →
      mainExitCode numFiles cancelled success = 1) ∧
    (0 < numFiles → cancelled = false → 0 < success →
      mainExitCode numFiles cancelled success = 0) := by
  refine ⟨fun h0 => ?_, fun hn hc => ?_, fun hn hc hs => ?_, fun hn hc hs => ?_⟩ <;>
    simp [mainExitCode, *] <;> omega

/-- Witness for `exit_code_terminal_states` at concrete inputs. -/
theorem exit_code_terminal_states_witness :
    mainExitCode 0 false 0 = 0 ∧ mainExitCode 3 true 1 = 1 ∧
    mainExitCode 3 false 0 = 1 ∧ mainExitCode 3 false 2 = 0 :=
  ⟨(exit_code_terminal_states 0 0 false).1 rfl,
   (exit_code_terminal_states 3 1 true).2.1 (by omega) rfl,
   (exit_code_terminal_states 3 0 false).2.2.1 (by omega) rfl rfl,
   (exit_code_terminal_states 3 2 false).2.2.2 (by omega) rfl (by omega)⟩

/-- Claim C6: for a batch of N work items of which K fail, the
aggregation loop consumes exactly N outcomes (one per item), the final
counters are `success = N - K` and `failed = K`, and after folding any
prefix of n outcomes the invariant `success + failed = n` holds. -/
theorem aggregation_exactly_once_counts (tasks : List WorkItem)
    (envOf : WorkItem → ConvEnv) :
    (executorMap (runWorker envOf) tasks).length = tasks.length ∧
    (aggregate (executorMap (runWorker envOf) tasks)).failed =
      ((executorMap (runWorker envOf) tasks).filter fun o => !o.1).length ∧
    (aggregate (executorMap (runWorker envOf) tasks)).success =
      tasks.length -
        ((executorMap (runWorker envOf) tasks).filter fun o => !o.1).length ∧
    ∀ n, (aggregate ((executorMap (runWorker envOf) tasks).take n)).success +
        (aggregate ((executorMap (runWorker envOf) tasks).take n)).failed =
      min n tasks.length := by
  have hlen : (executorMap (runWorker envOf) tasks).length = tasks.length :=
    List.length_map ..
  refine ⟨hlen, aggregate_failed_eq _, ?_, fun n => ?_⟩
  · have h1 := aggregate_success_add_failed (executorMap (runWorker envOf) tasks)
    have h2 := aggregate_failed_eq (executorMap (runWorker envOf) tasks)
    omega
  · have h1 := aggregate_success_add_failed
      ((executorMap (runWorker envOf) tasks).take n)
    rw [List.length_take, hlen] at h1
    exact h1

/-- Claim C7: when no regular file occupies `base/name` the resolver
returns `base/name` unchanged (an existing directory is reused); when a
regular file occupies it, the resolver returns `base/name_i` for the
smallest positive `i` such that `base/name_i` is not an existing
regular file (given enough fuel to reach it, since the source loop is
unbounded). -/
theorem output_folder_resolution (fs_exists is_file : FsPath → Bool)
    (base_folder : FsPath) (name : String) (fuel i : Nat) :
    (is_file (base_folder ++ [name]) = false →
      get_unique_output_folder fs_exists is_file base_folder name fuel =
        some (base_folder ++ [name])) ∧
    (fs_exists (base_folder ++ [name]) = true →
      is_file (base_folder ++ [name]) = true →
      1 ≤ i → i ≤ fuel →
      is_file (base_folder ++ [name ++ "_" ++ toString i]) = false →
      (∀ j, j < i → 1 ≤ j →
        is_file (base_folder ++ [name ++ "_" ++ toString j]) = true) →
      get_unique_output_folder fs_exists is_file base_folder name fuel =
        some (base_folder ++ [name ++ "_" ++ toString i])) := by
  constructor
  · intro h
    simp [get_unique_output_folder, h]
  · intro hfe hfi h1 h2 hfree hall
    rw [get_unique_output_folder]
    simp only [hfe, hfi, Bool.and_self, if_true]
    exact uniqueLoop_finds is_file base_folder name i hfree fuel 1 h1 (by omega)
      fun j hj1 hj2 => hall j hj2 hj1

/-- Witness for `output_folder_resolution`: a plain file occupies
`r/optimized_webp` and `r/optimized_webp_1`, so `optimized_webp_2` is
chosen; with a different requested name not occupied by a file, the
requested path is returned unchanged. -/
theorem output_folder_resolution_witness :
    (fun p : FsPath => p == ["r", "optimized_webp"]) (["r"] ++ ["out"]) = false ∧
    get_unique_output_folder (fun p : FsPath => p == ["r", "optimized_webp"])
        (fun p : FsPath => p == ["r", "optimized_webp"]) ["r"] "out" 5 =
      some (["r"] ++ ["out"]) ∧
    get_unique_output_folder
        (fun p : FsPath =>
          p == ["r", "optimized_webp"] || p == ["r", "optimized_webp_1"])
        (fun p : FsPath =>
          p == ["r", "optimized_webp"] || p == ["r", "optimized_webp_1"])
        ["r"] "optimized_webp" 5 =
      some (["r"] ++ ["optimized_webp" ++ "_" ++ toString 2]) := by
  refine ⟨by decide, ?_, ?_⟩
  · exact (output_folder_resolution _ _ ["r"] "out" 5 2).1 (by decide)
  · exact (output_folder_resolution _ _ ["r"] "optimized_webp" 5 2).2
      (by decide) (by decide) (by decide) (by decide) (by decide) (by decide)

/-- Claim C8: for every work item (a scanned file, so its extension
lowercased is a recognised one), the destination is the output root
joined with the source path relative to the input root, with the
extension replaced by `.webp`, and the destination's extension is
always exactly `.webp`. -/
theorem destination_webp_path (file_path output_root input_root rel : FsPath)
    (hrel : relative_to file_path input_root = some rel)
    (hext : pyLower (pathSuffix rel) ∈ EXTENSIONS) :
    output_file_path file_path output_root input_root =
      some (output_root ++ (rel.dropLast ++ [pyStem (pathName rel) ++ ".webp"])) ∧
    pathSuffix (output_root ++ (rel.dropLast ++ [pyStem (pathName rel) ++ ".webp"])) =
      ".webp" := by
  constructor
  · rw [output_file_path, hrel]
    rfl
  · have hstem : pyStem (pathName rel) ≠ "" := pyStem_ne_empty _ hext
    rw [pathSuffix]
    have hname : pathName
        (output_root ++ (rel.dropLast ++ [pyStem (pathName rel) ++ ".webp"])) =
        pyStem (pathName rel) ++ ".webp" := by
      rw [pathName, ← List.append_assoc]
      exact List.getLastD_concat _ _ _
    rw [hname]
    exact pySuffix_append_webp _ hstem

/-- Witness for `destination_webp_path` on `r/sub/IMG.PNG`. -/
theorem destination_webp_path_witness :
    relative_to ["r", "sub", "IMG.PNG"] ["r"] = some ["sub", "IMG.PNG"] ∧
    pyLower (pathSuffix ["sub", "IMG.PNG"]) ∈ EXTENSIONS ∧
    output_file_path ["r", "sub", "IMG.PNG"] ["r", "optimized_webp"] ["r"] =
      some (["r", "optimized_webp"] ++
        (["sub", "IMG.PNG"].dropLast ++
          [pyStem (pathName ["sub", "IMG.PNG"]) ++ ".webp"])) ∧
    pathSuffix (["r", "optimized_webp"] ++
        (["sub", "IMG.PNG"].dropLast ++
          [pyStem (pathName ["sub", "IMG.PNG"]) ++ ".webp"])) = ".webp" :=
  ⟨rfl, by decide,
    (destination_webp_path ["r", "sub", "IMG.PNG"] ["r", "optimized_webp"] ["r"]
      ["sub", "IMG.PNG"] rfl (by decide)).1,
    (destination_webp_path ["r", "sub", "IMG.PNG"] ["r", "optimized_webp"] ["r"]
      ["sub", "IMG.PNG"] rfl (by decide)).2⟩

/-- Claim C9: the report's percent-saved equals
`(orig_total - new_total) / orig_total * 100` whenever `orig_total`
is positive and is 0 when `orig_total` is 0; finalizing with zero
folded outcomes yields all-zero counters and totals and a 0 percentage
with no division by zero. -/
theorem percent_saved_formula :
    (∀ s : AggState, 0 < s.orig_total →
      pctSaved s =
        (((s.orig_total : Int) - s.new_total : Int) : ℚ) / (s.orig_total : ℚ) * 100) ∧
    (∀ s : AggState, s.orig_total = 0 → pctSaved s = 0) ∧
    aggregate [] = aggInit ∧
    (aggregate []).success = 0 ∧ (aggregate []).failed = 0 ∧
    (aggregate []).orig_total = 0 ∧ (aggregate []).new_total = 0 ∧
    pctSaved (aggregate []) = 0 := by
  refine ⟨fun s hs => ?_, fun s hs => ?_, rfl, rfl, rfl, rfl, rfl, ?_⟩
  · rw [pctSaved, if_pos hs]
  · rw [pctSaved, if_neg (by omega)]
  · rw [show aggregate [] = aggInit from rfl, pctSaved, if_neg (by simp [aggInit])]

/-- Witness for `percent_saved_formula`: 200 original bytes shrunk to
50 is a 75 percent saving. -/
theorem percent_saved_formula_witness :
    pctSaved (AggState.mk 1 0 200 50) = 75 := by
  have h := percent_saved_formula.1 (AggState.mk 1 0 200 50) (by decide)
  rw [h]
  norm_num

/-- Claim C10: the sequence of outcomes consumed by the aggregation
loop lines up index-by-index with the submitted work items:
`executor.map` yields exactly the converter's result for the i-th task
at position i (submission order is preserved). -/
theorem outcomes_in_submission_order (tasks : List WorkItem)
    (envOf : WorkItem → ConvEnv) :
    (executorMap (runWorker envOf) tasks).length = tasks.length ∧
    ∀ i : Nat, (executorMap (runWorker envOf) tasks)[i]? =
      tasks[i]?.map (runWorker envOf) := by
  refine ⟨List.length_map _ _, fun i => ?_⟩
  simp [executorMap]

end Imgopt
